import Mathlib

/-!
Verification of the slideshow scheduling and layout engine of
mediadisplay.py (davidsmakerworks/media-display).

Each definition below is a shallow embedding of the corresponding piece of
the Python source.  Machine arithmetic conventions used throughout:

* Python `float(a) / b * c` followed by `int(...)` truncation, applied to
  nonnegative integer operands, is modelled as exact natural floor division
  `a * c / b` (truncation of a nonnegative quotient is floor; the IEEE
  double rounding of the intermediate quotient is below pixel resolution
  for the screen/image sizes involved).
* Python `x / 2` (true division) on integers is modelled exactly in `ℚ`.
* Python strings are modelled as Lean `String` or `List Char` as noted.
* External library calls (pygame font metrics, `glob.glob` over a
  directory) are modelled as explicit oracle parameters, since the spec
  classifies them as consumed capabilities.
* A Python function that can raise is modelled with `Except`, the raised
  exception class being recorded in the error value.
-/

deriving instance DecidableEq for Except

namespace MediaDisplay

/-- Exception that the geometry computation in `MediaPlayer.show_image` can
raise: `float(self.screen_width) / img_width` raises `ZeroDivisionError`
when `img_width` is zero (there is no `InvalidMediaError` anywhere in the
source). -/
inductive GeomError where
  | zeroDivision
deriving DecidableEq

/-- Result of the geometry part of `MediaPlayer.show_image`:
whether a scaling transform was applied (the branch at lines 106-133 ran),
the scaled width/height handed to `pygame.transform`, and the blit offsets
`display_x`, `display_y` (Python true division, hence rationals). -/
structure Geom where
  scalingApplied : Bool
  w : Nat
  h : Nat
  x : ℚ
  y : ℚ
deriving DecidableEq

/-- Shallow embedding of the geometry computed by `MediaPlayer.show_image`
(mediadisplay.py lines 104-142).  `imgW`, `imgH` are the source image
dimensions, `screenW`, `screenH` the display surface dimensions.
Faithful to the source: the scaling branch runs iff the image size differs
from the screen size; `scaled_height = int(float(screen_width)/img_width *
img_height)` is floor division and raises `ZeroDivisionError` for
`img_width = 0`; if that candidate height exceeds the screen height, the
height is clamped and the width is scaled by the symmetric formula;
offsets center the scaled image. -/
def showImageGeom (imgW imgH screenW screenH : Nat) : Except GeomError Geom :=
  if imgH ≠ screenH ∨ imgW ≠ screenW then
    if imgW = 0 then .error .zeroDivision
    else
      let scaledH := screenW * imgH / imgW
      if scaledH > screenH then
        if imgH = 0 then .error .zeroDivision
        else
          let scaledW := screenH * imgW / imgH
          .ok ⟨true, scaledW, screenH,
               ((screenW : ℚ) - (scaledW : ℚ)) / 2,
               ((screenH : ℚ) - (screenH : ℚ)) / 2⟩
      else
        .ok ⟨true, screenW, scaledH,
             ((screenW : ℚ) - (screenW : ℚ)) / 2,
             ((screenH : ℚ) - (scaledH : ℚ)) / 2⟩
  else
    .ok ⟨false, imgW, imgH, 0, 0⟩

/-- Shallow embedding of `fixpath` (mediadisplay.py lines 256-264).
A Python string is modelled as its list of characters;
`path_name.endswith('/')` is the test that the last character is `'/'`. -/
def fixpath (pathName : List Char) : List Char :=
  if ¬ (pathName.getLast? = some '/') then pathName ++ ['/'] else pathName

/-- Calendar date as compared by Python `datetime.date`: ordering is
lexicographic on (year, month, day). -/
structure PyDate where
  year : Nat
  month : Nat
  day : Nat
deriving DecidableEq

/-- Python `date` comparison `a <= b`: lexicographic on (year, month, day). -/
def dateLE (a b : PyDate) : Bool :=
  decide (a.year < b.year ∨
    (a.year = b.year ∧ (a.month < b.month ∨
      (a.month = b.month ∧ a.day ≤ b.day))))

/-- One display line as built by the announcement loop
(mediadisplay.py lines 328-341): `[text, size, color, center]`.
The color tuple is modelled as a list of naturals because `hex_to_rgb`
can return tuples of any arity. -/
structure AnnLine where
  text : String
  size : Int
  color : List Nat
  center : Bool
deriving DecidableEq

/-- A parsed announcement record: start date, end date, and its lines. -/
structure AnnRecord where
  startDate : PyDate
  endDate : PyDate
  lines : List AnnLine
deriving DecidableEq

/-- Date filter applied to each parsed announcement (mediadisplay.py
line 320): `ann_start_date <= current_date and ann_end_date >=
current_date`, with `current_date` captured once per cycle (line 305)
and passed in unchanged. -/
def eligibleAnns (today : PyDate) (anns : List AnnRecord) : List AnnRecord :=
  anns.filter (fun a => dateLE a.startDate today && dateLE today a.endDate)

/-- Demonstration record with the date range of the spec's date-filtering
example: start 2024-01-01, end 2024-01-31, no lines. -/
def demoRec : AnnRecord := ⟨⟨2024, 1, 1⟩, ⟨2024, 1, 31⟩, []⟩

/-- Font-metrics oracle: what `pygame.font.Font(text_font, size).size(text)`
returns, i.e. the rendered (width, height) of `text` at point size `size`
for the configured font file. -/
def Metrics : Type := Int → String → Nat × Nat

/-- The condition tested at mediadisplay.py line 187: `if text.strip:`.
Note the missing call parentheses — `text.strip` is a bound-method object,
and in Python any bound method is truthy, so the test holds for every
string, including the empty string of a spacer line. -/
def stripMethodTruthy (text : String) : Bool := true

/-- Pre-pass of `MediaPlayer.show_announcement` (lines 179-196) computing
the total block height used for vertical centering.  Transcribed verbatim:
because of `stripMethodTruthy` the else branch (adding up spacer sizes
directly) is dead code, even though the source comments describe it as the
spacer path. -/
def totalHeightCalc (metrics : Metrics) (lineSpacing : Int)
    (ann : List AnnLine) : Int :=
  ann.foldl
    (fun total line =>
      if stripMethodTruthy line.text then
        total + ((metrics line.size line.text).2 : Int) + lineSpacing
      else
        total + line.size)
    0

/-- Concrete metrics oracle for evaluating the layout on examples: width 0,
height equal to the requested point size (the assignment most favorable to
the spec's spacer arithmetic). -/
def demoMetrics : Metrics := fun size _ => (0, size.toNat)

/-- The spec's all-spacer example announcement: three spacer lines of
sizes 10, 20, 30. -/
def demoSpacers : List AnnLine :=
  [⟨"", 10, [0, 0, 0], false⟩, ⟨"", 20, [0, 0, 0], false⟩,
   ⟨"", 30, [0, 0, 0], false⟩]

/-- The classification used by the render loop (line 215):
`text.strip() != ""` — a line whose text trims to empty is a spacer. -/
def isTextLine (line : AnnLine) : Bool := line.text.trim ≠ ""

/-- One blit produced by the render loop: the rendered text and the
position passed to `screen.blit` (Python true division, hence rationals). -/
structure Placement where
  text : String
  x : ℚ
  y : ℚ
deriving DecidableEq

/-- Render loop of `MediaPlayer.show_announcement` (lines 207-240), given
the running vertical position: a text line is blitted at
`(screen_width - line_width) / 2` when centered (else 0) and the cursor
advances by `line_height + line_spacing`; a spacer line produces no blit
and advances the cursor by its size. -/
def renderLines (metrics : Metrics) (screenW : Nat) (lineSpacing : Int) :
    ℚ → List AnnLine → List Placement
  | _, [] => []
  | y, line :: rest =>
    if isTextLine line then
      (⟨line.text,
        if line.center then
          ((screenW : ℚ) - ((metrics line.size line.text).1 : ℚ)) / 2
        else 0,
        y⟩ : Placement) ::
        renderLines metrics screenW lineSpacing
          (y + ((metrics line.size line.text).2 : ℚ) + (lineSpacing : ℚ))
          rest
    else
      renderLines metrics screenW lineSpacing (y + (line.size : ℚ)) rest

/-- Full layout of `MediaPlayer.show_announcement` (lines 179-243):
pre-pass total height, starting position `(screen_height - total) / 2`
clamped below at 0 (lines 199-201), then the render loop. -/
def showAnnouncementLayout (metrics : Metrics) (screenW screenH : Nat)
    (lineSpacing : Int) (ann : List AnnLine) : List Placement :=
  renderLines metrics screenW lineSpacing
    (if ((screenH : ℚ) - ((totalHeightCalc metrics lineSpacing ann : Int) : ℚ)) / 2 < 0
     then 0
     else ((screenH : ℚ) - ((totalHeightCalc metrics lineSpacing ann : Int) : ℚ)) / 2)
    ann

/-- Vertical advance contributed by one line in the render loop. -/
def lineAdvance (metrics : Metrics) (lineSpacing : Int) (line : AnnLine) : ℚ :=
  if isTextLine line then
    ((metrics line.size line.text).2 : ℚ) + (lineSpacing : ℚ)
  else
    (line.size : ℚ)

/-- Each input line paired with the running cursor position at which the
render loop reaches it, starting from y0. -/
def withCumOffsets (metrics : Metrics) (lineSpacing : Int) :
    ℚ → List AnnLine → List (AnnLine × ℚ)
  | _, [] => []
  | y, line :: rest =>
    (line, y) ::
      withCumOffsets metrics lineSpacing (y + lineAdvance metrics lineSpacing line) rest

/-- One event produced by a scheduler step, in display order. -/
inductive MediaEvent where
  | photo (file : String)
  | announcement (ann : List AnnLine)
  | video (file : String)
deriving DecidableEq

/-- One inner-loop step of the scheduler (mediadisplay.py lines 368-386):
show the current photo; then roll for an announcement — draw r1 =
random.random() and, if r1 <= announcement probability and the eligible
announcement list is nonempty, show one chosen by random.choice; then roll
for a video — draw r2 and, if r2 <= video probability and the video list
is nonempty, play one chosen by random.choice.  The uniform draws r1, r2
and the choice indices ia, iv (taken modulo the list length) are oracle
inputs standing for the random source. -/
def schedulerStep (annProb vidProb r1 r2 : ℚ) (ia iv : Nat)
    (photoFile : String) (anns : List (List AnnLine))
    (videos : List String) : List MediaEvent :=
  [MediaEvent.photo photoFile]
    ++ (if r1 ≤ annProb ∧ anns ≠ [] then
          [MediaEvent.announcement (anns.getD (ia % anns.length) [])]
        else [])
    ++ (if r2 ≤ vidProb ∧ videos ≠ [] then
          [MediaEvent.video (videos.getD (iv % videos.length) "")]
        else [])

/-- All suffixes of a character list, longest first. -/
def charSuffixes : List Char → List (List Char)
  | [] => [[]]
  | c :: cs => (c :: cs) :: charSuffixes cs

/-- Glob matching of a pattern against one file name, as `glob.glob`
applies it to each directory entry: a star matches any (possibly empty)
run of characters; every other pattern character matches itself literally
and case-sensitively.  The question-mark and bracket forms of fnmatch are
not used by this program's extension patterns and are not modelled. -/
def globMatch : List Char → List Char → Bool
  | [], s => s.isEmpty
  | p :: ps, s =>
    if p = '*' then (charSuffixes s).any (fun t => globMatch ps t)
    else
      match s with
      | [] => false
      | c :: cs => p = c && globMatch ps cs

/-- Python `wildcard.upper()` on the ASCII wildcard patterns the
configuration uses. -/
def listUpper (w : List Char) : List Char := w.map Char.toUpper

/-- Python `wildcard.lower()` on the ASCII wildcard patterns the
configuration uses. -/
def listLower (w : List Char) : List Char := w.map Char.toLower

/-- Python string comparison `a <= b`: lexicographic by code point. -/
def pyStrLE : List Char → List Char → Bool
  | [], _ => true
  | _ :: _, [] => false
  | a :: as, b :: bs => if a = b then pyStrLE as bs else decide (a < b)

/-- One cycle's photo enumeration (mediadisplay.py lines 349-351): for
each wildcard, append the directory entries matching its all-uppercase
form, then those matching its all-lowercase form.  `glob.glob` over the
photo directory is modelled as filtering the directory's file listing. -/
def scanPhotos (dirFiles patterns : List (List Char)) : List (List Char) :=
  patterns.foldl
    (fun photos w =>
      (photos ++ dirFiles.filter (fun f => globMatch (listUpper w) f))
        ++ dirFiles.filter (fun f => globMatch (listLower w) f))
    []

/-- The photo list as displayed (line 362): the scan result sorted by
`photos.sort()`, i.e. lexicographically by code point. -/
def sortedPhotos (dirFiles patterns : List (List Char)) : List (List Char) :=
  (scanPhotos dirFiles patterns).mergeSort (fun a b => pyStrLE a b)

/-- File name of the duplicate-listing example: "1.123". -/
def dupFile : List Char := ['1', '.', '1', '2', '3']

/-- Wildcard of the duplicate-listing example: "*.123" — its uppercase and
lowercase forms coincide. -/
def dupPat : List Char := ['*', '.', '1', '2', '3']

/-- Python exception classes the announcement load can raise.  Note that
no ConfigError (or any program-defined exception) exists in the source;
these are the built-in exceptions that propagate uncaught. -/
inductive PyExc where
  | typeError
  | valueError
  | attributeError
deriving DecidableEq

/-- Whether an Except value is a success. -/
def exceptIsOk {ε α : Type} : Except ε α → Bool
  | .ok _ => true
  | .error _ => false

/-- Decimal digit run to a number; none when empty or any character is not
a digit. -/
def digitsToNat (cs : List Char) : Option Nat :=
  if cs.isEmpty then none
  else if cs.all Char.isDigit then
    some (cs.foldl (fun acc c => acc * 10 + (c.toNat - Char.toNat '0')) 0)
  else none

/-- Python `int(x)` on an optional XML attribute value: a missing
attribute is None and `int(None)` raises TypeError; a present value parses
as an optionally signed decimal string, else ValueError. -/
def pyInt : Option String → Except PyExc Int
  | none => .error .typeError
  | some s =>
    match s.toList with
    | '-' :: ds =>
      match digitsToNat ds with
      | some n => .ok (-(n : Int))
      | none => .error .valueError
    | '+' :: ds =>
      match digitsToNat ds with
      | some n => .ok (n : Int)
      | none => .error .valueError
    | ds =>
      match digitsToNat ds with
      | some n => .ok (n : Int)
      | none => .error .valueError

/-- Gregorian leap year rule, as validated by strptime. -/
def isLeapYear (y : Nat) : Bool :=
  y % 4 = 0 && (y % 100 ≠ 0 || y % 400 = 0)

/-- Days in a month, as validated by strptime. -/
def daysInMonth (y m : Nat) : Nat :=
  if m = 2 then (if isLeapYear y then 29 else 28)
  else if m = 4 ∨ m = 6 ∨ m = 9 ∨ m = 11 then 30
  else 31

/-- Splitting a character list at dashes, as Python re-matching of the
date format `%Y-%m-%d` segments the input. -/
def splitOnDash : List Char → List (List Char)
  | [] => [[]]
  | c :: rest =>
    if c = '-' then [] :: splitOnDash rest
    else
      match splitOnDash rest with
      | [] => [[c]]
      | l :: ls => (c :: l) :: ls

/-- Python `datetime.strptime(value, '%Y-%m-%d').date()` on an optional
XML attribute (mediadisplay.py lines 313-317): a missing attribute is None
and strptime raises TypeError; a present value must be three
dash-separated decimal fields forming a valid calendar date, else
ValueError. -/
def strptimeDate : Option String → Except PyExc PyDate
  | none => .error .typeError
  | some s =>
    match (splitOnDash s.toList).map digitsToNat with
    | [some y, some m, some d] =>
      if 1 ≤ m ∧ m ≤ 12 ∧ 1 ≤ d ∧ d ≤ daysInMonth y m then
        .ok ⟨y, m, d⟩
      else .error .valueError
    | _ => .error .valueError

/-- Value of one hexadecimal digit. -/
def hexDigitVal (c : Char) : Option Nat :=
  if c.isDigit then some (c.toNat - Char.toNat '0')
  else if 'a' ≤ c ∧ c ≤ 'f' then some (c.toNat - Char.toNat 'a' + 10)
  else if 'A' ≤ c ∧ c ≤ 'F' then some (c.toNat - Char.toNat 'A' + 10)
  else none

/-- Python `int(x, 16)` on a substring: none when empty or any character
is not a hex digit. -/
def hexChunk (cs : List Char) : Option Nat :=
  if cs.isEmpty then none
  else
    cs.foldl
      (fun acc c => acc.bind (fun a => (hexDigitVal c).map (fun v => a * 16 + v)))
      (some 0)

/-- Shallow embedding of `hex_to_rgb` (mediadisplay.py lines 246-253):
strip leading hash marks, then cut the remainder into `len // 3`-sized
chunks at positions `range(0, len, len // 3)` and parse each as base 16.
When `len // 3` is zero, Python's `range` raises ValueError. -/
def hexToRgb (s : String) : Except PyExc (List Nat) :=
  let v := s.toList.dropWhile (fun c => c = '#')
  let lv := v.length
  let step := lv / 3
  if step = 0 then .error .valueError
  else
    (List.range ((lv + step - 1) / step)).mapM
      (fun i =>
        match hexChunk ((v.drop (i * step)).take step) with
        | some n => Except.ok n
        | none => Except.error PyExc.valueError)

/-- One `line` element of the announcement XML: its text content (None
models an empty element) and its size, color, center attributes (None
models a missing attribute). -/
structure RawLine where
  text : Option String
  size : Option String
  color : Option String
  center : Option String
deriving DecidableEq

/-- One `announcement` element of the announcement XML. -/
structure RawItem where
  startdate : Option String
  enddate : Option String
  lines : List RawLine
deriving DecidableEq

/-- Parsing of one line element (mediadisplay.py lines 325-341).
`if not line.text:` is falsy for a missing text node and for the empty
string, giving the spacer `["", size, (0,0,0), False]`; otherwise the
center attribute is converted first (line 332), then the list display
evaluates `int(line.get('size'))` and `hex_to_rgb(line.get('color'))` in
order — a missing color attribute makes `hex_to_rgb` call `None.lstrip`,
an AttributeError. -/
def parseAnnLine (line : RawLine) : Except PyExc AnnLine :=
  if line.text.getD "" = "" then
    match pyInt line.size with
    | .ok sz => .ok ⟨"", sz, [0, 0, 0], false⟩
    | .error e => .error e
  else
    match pyInt line.center with
    | .error e => .error e
    | .ok c =>
      match pyInt line.size with
      | .error e => .error e
      | .ok sz =>
        match line.color with
        | none => .error .attributeError
        | some cs =>
          match hexToRgb cs with
          | .error e => .error e
          | .ok col => .ok ⟨line.text.getD "", sz, col, decide (c = 1)⟩

/-- The announcement load loop (mediadisplay.py lines 312-345): for each
announcement element, parse both dates (any failure propagates as an
uncaught exception, aborting the whole load); when the inclusive date
range contains today, parse the lines (failures likewise propagate) and
collect the announcement; otherwise skip it entirely. -/
def parseAnnouncements (today : PyDate) :
    List RawItem → Except PyExc (List (List AnnLine))
  | [] => .ok []
  | item :: rest =>
    match strptimeDate item.startdate with
    | .error e => .error e
    | .ok sd =>
      match strptimeDate item.enddate with
      | .error e => .error e
      | .ok ed =>
        if dateLE sd today && dateLE today ed then
          match item.lines.mapM parseAnnLine with
          | .error e => .error e
          | .ok lines =>
            match parseAnnouncements today rest with
            | .error e => .error e
            | .ok anns => .ok (lines :: anns)
        else
          parseAnnouncements today rest

/-- A malformed announcement entry: its date range (Jan 2000) is over, and
its text line is missing the required size, color and center attributes. -/
def badLineItem : RawItem :=
  ⟨some "2000-01-01", some "2000-01-02",
   [⟨some "Hello", none, none, none⟩]⟩

/-- C1 (code bug): the pre-pass counts every line as a text line, because
line 187 tests the bound method `text.strip` instead of calling it, so an
all-spacer announcement of sizes 10, 20, 30 with line spacing 5 gets total
height 75 (font height of each spacer plus spacing, under metrics whose
text height equals the point size), not the 60 the spec derives. -/
theorem totalHeight_spacer_bug :
    totalHeightCalc demoMetrics 5 demoSpacers = 75 ∧
    totalHeightCalc demoMetrics 5 demoSpacers ≠ 60 := by
  constructor <;> decide

/-- Clamping a rational below at zero, written as the source writes it,
equals the max-with-zero of the spec. -/
theorem iteNegClamp (x : ℚ) : (if x < 0 then (0 : ℚ) else x) = max 0 x := by
  by_cases h : x < 0
  · simp [h, max_eq_left h.le]
  · simp [h, max_eq_right (not_lt.mp h)]

/-- The render loop emits exactly the text lines, in input order. -/
theorem renderLines_map_text (m : Metrics) (W : Nat) (sp : Int) :
    ∀ (ann : List AnnLine) (y0 : ℚ),
      (renderLines m W sp y0 ann).map Placement.text =
        (ann.filter isTextLine).map AnnLine.text := by
  intro ann
  induction ann with
  | nil => intro y0; simp [renderLines]
  | cons l rest ih =>
    intro y0
    by_cases h : isTextLine l
    · simp [renderLines, h, ih]
    · simp [renderLines, h, ih]

/-- The render loop equals the filterMap over lines paired with their
cumulative cursor positions, with the claim's horizontal-position rule. -/
theorem renderLines_eq_cum (m : Metrics) (W : Nat) (sp : Int) :
    ∀ (ann : List AnnLine) (y0 : ℚ),
      renderLines m W sp y0 ann =
        (withCumOffsets m sp y0 ann).filterMap (fun p =>
          if isTextLine p.1 then
            some ⟨p.1.text,
                  if p.1.center then
                    ((W : ℚ) - ((m p.1.size p.1.text).1 : ℚ)) / 2
                  else 0,
                  p.2⟩
          else none) := by
  intro ann
  induction ann with
  | nil => intro y0; simp [renderLines, withCumOffsets]
  | cons l rest ih =>
    intro y0
    by_cases h : isTextLine l
    · simp [renderLines, withCumOffsets, h, ih, lineAdvance, add_assoc]
    · simp [renderLines, withCumOffsets, h, ih, lineAdvance]

/-- The cursor position attached to the i-th line is the start position
plus the sum of the advances of all preceding lines. -/
theorem withCumOffsets_getElem (m : Metrics) (sp : Int) :
    ∀ (ann : List AnnLine) (y0 : ℚ) (i : Nat),
      (withCumOffsets m sp y0 ann)[i]? =
        (ann[i]?).map (fun l =>
          (l, y0 + (((ann.take i).map (lineAdvance m sp)).sum))) := by
  intro ann
  induction ann with
  | nil => intro y0 i; simp [withCumOffsets]
  | cons l rest ih =>
    intro y0 i
    cases i with
    | zero => simp [withCumOffsets]
    | succ j =>
      simp only [withCumOffsets, List.getElem?_cons_succ, ih,
        List.take_succ_cons, List.map_cons, List.sum_cons]
      cases rest[j]? <;> simp [add_assoc]

/-- C6: the layout starts at max(0, (surfaceHeight - totalHeight) / 2);
the render loop emits exactly the text lines in input order, each placed
at x = (surfaceWidth - lineWidth) / 2 when centered and 0 otherwise, at
the running cursor position; and the cursor at the i-th input line is the
start plus the sum of preceding advances (lineHeight + spacing for text
lines, size for spacer lines). -/
theorem showAnnouncement_layout_props (m : Metrics) (W H : Nat) (sp : Int)
    (ann : List AnnLine) :
    showAnnouncementLayout m W H sp ann =
      renderLines m W sp
        (max 0 (((H : ℚ) - ((totalHeightCalc m sp ann : Int) : ℚ)) / 2)) ann
  ∧ (∀ y0 : ℚ, (renderLines m W sp y0 ann).map Placement.text =
      (ann.filter isTextLine).map AnnLine.text)
  ∧ (∀ y0 : ℚ, renderLines m W sp y0 ann =
      (withCumOffsets m sp y0 ann).filterMap (fun p =>
        if isTextLine p.1 then
          some ⟨p.1.text,
                if p.1.center then
                  ((W : ℚ) - ((m p.1.size p.1.text).1 : ℚ)) / 2
                else 0,
                p.2⟩
        else none))
  ∧ (∀ (y0 : ℚ) (i : Nat),
      (withCumOffsets m sp y0 ann)[i]? =
        (ann[i]?).map (fun l =>
          (l, y0 + (((ann.take i).map (lineAdvance m sp)).sum)))) := by
  refine ⟨?_, fun y0 => renderLines_map_text m W sp ann y0,
          fun y0 => renderLines_eq_cum m W sp ann y0,
          fun y0 i => withCumOffsets_getElem m sp ann y0 i⟩
  unfold showAnnouncementLayout
  rw [iteNegClamp]

/-- C9: if the source dimensions exactly equal the display surface
dimensions, no scaling transform is applied and the placement offsets are
exactly (0, 0). -/
theorem showImageGeom_identity (imgW imgH screenW screenH : Nat)
    (h1 : imgW = screenW) (h2 : imgH = screenH) :
    showImageGeom imgW imgH screenW screenH = .ok ⟨false, imgW, imgH, 0, 0⟩ := by
  subst h1
  subst h2
  simp [showImageGeom]

/-- Witness for C9 at a concrete full-screen image. -/
theorem showImageGeom_identity_witness :
    showImageGeom 1920 1080 1920 1080 = .ok ⟨false, 1920, 1080, 0, 0⟩ :=
  showImageGeom_identity 1920 1080 1920 1080 rfl rfl

/-- C3 counterexample: a source image with a zero dimension does not make
the geometry calculation fail at all — for a 5 x 0 image on a 1920 x 1080
screen the computation succeeds, producing scaled size (1920, 0).  No
`InvalidMediaError` is raised (no such class exists in the source). -/
theorem showImageGeom_zero_height_ok :
    showImageGeom 5 0 1920 1080 = .ok ⟨true, 1920, 0, 0, 540⟩ := by
  unfold showImageGeom
  norm_num

/-- C3 amended: a zero source width (image size differing from the screen)
raises an uncaught `ZeroDivisionError`; a zero source height with nonzero
width does not fail at all — the geometry succeeds with scaled size
(screenW, 0).  In neither case is an `InvalidMediaError` involved. -/
theorem showImageGeom_zero_dims :
    (∀ imgH screenW screenH : Nat, screenW ≠ 0 →
        showImageGeom 0 imgH screenW screenH = .error .zeroDivision) ∧
    (∀ imgW screenW screenH : Nat, imgW ≠ 0 → screenH ≠ 0 →
        showImageGeom imgW 0 screenW screenH =
          .ok ⟨true, screenW, 0, 0, (screenH : ℚ) / 2⟩) := by
  constructor
  · intro imgH screenW screenH hW
    unfold showImageGeom
    rw [if_pos (Or.inr (Ne.symm hW)), if_pos rfl]
  · intro imgW screenW screenH hw hH
    unfold showImageGeom
    rw [if_pos (Or.inl (Ne.symm hH)), if_neg hw]
    simp

/-- Witness for C3's amended statement at concrete inputs. -/
theorem showImageGeom_zero_dims_witness :
    showImageGeom 0 10 1920 1080 = .error .zeroDivision ∧
    showImageGeom 5 0 1920 1080 = .ok ⟨true, 1920, 0, 0, 540⟩ := by
  constructor
  · exact showImageGeom_zero_dims.1 10 1920 1080 (by decide)
  · rw [showImageGeom_zero_dims.2 5 1920 1080 (by decide) (by decide)]
    norm_num

/-- C2: for positive source and screen dimensions the geometry computation
succeeds, the scaled size fits the screen on both axes, the aspect ratio is
preserved up to less than one source pixel of rounding error in cross
ratio, the width is filled first, and the height is filled instead exactly
when the width-filling candidate height exceeds the screen height. -/
theorem showImageGeom_fits (imgW imgH screenW screenH : Nat)
    (hw : 0 < imgW) (hh : 0 < imgH) (hW : 0 < screenW) (hH : 0 < screenH) :
    ∃ g : Geom, showImageGeom imgW imgH screenW screenH = .ok g ∧
      g.w ≤ screenW ∧ g.h ≤ screenH ∧
      (g.w : Int) * (imgH : Int) - (g.h : Int) * (imgW : Int) < imgW ∧
      (g.h : Int) * (imgW : Int) - (g.w : Int) * (imgH : Int) < imgH ∧
      (screenW * imgH / imgW ≤ screenH →
        g.w = screenW ∧ g.h = screenW * imgH / imgW) ∧
      (screenH < screenW * imgH / imgW →
        g.h = screenH ∧ g.w = screenH * imgW / imgH) := by
  have hw0 : imgW ≠ 0 := hw.ne'
  have hh0 : imgH ≠ 0 := hh.ne'
  by_cases hc : imgH ≠ screenH ∨ imgW ≠ screenW
  · by_cases hgt : screenW * imgH / imgW > screenH
    · -- fill-height branch
      have heq : showImageGeom imgW imgH screenW screenH =
          .ok ⟨true, screenH * imgW / imgH, screenH,
               ((screenW : ℚ) - ((screenH * imgW / imgH : Nat) : ℚ)) / 2,
               ((screenH : ℚ) - ((screenH : Nat) : ℚ)) / 2⟩ := by
        simp only [showImageGeom]
        rw [if_pos hc, if_neg hw0, if_pos hgt, if_neg hh0]
      refine ⟨_, heq, ?_, le_refl _, ?_, ?_, ?_, ?_⟩
      · -- scaled width fits
        have h1 : (screenH + 1) * imgW ≤ screenW * imgH :=
          (Nat.le_div_iff_mul_le hw).mp hgt
        have h2 : screenH * imgW < screenW * imgH := by nlinarith
        calc screenH * imgW / imgH ≤ screenW * imgH / imgH :=
              Nat.div_le_div_right h2.le
          _ = screenW := Nat.mul_div_cancel screenW hh
      · -- aspect: w * imgH - h * imgW ≤ 0 < imgW
        have h3 : screenH * imgW / imgH * imgH ≤ screenH * imgW :=
          Nat.div_mul_le_self _ _
        have h3i : ((screenH * imgW / imgH : Nat) : Int) * imgH ≤
            (screenH : Int) * imgW := by exact_mod_cast h3
        have : (0 : Int) < imgW := by exact_mod_cast hw
        simp only []
        linarith
      · -- aspect: h * imgW - w * imgH = remainder < imgH
        have h4 : imgH * (screenH * imgW / imgH) + screenH * imgW % imgH =
            screenH * imgW := Nat.div_add_mod _ _
        have h5 : screenH * imgW % imgH < imgH := Nat.mod_lt _ hh
        have h4i : (imgH : Int) * ((screenH * imgW / imgH : Nat) : Int) +
            ((screenH * imgW % imgH : Nat) : Int) =
            (screenH : Int) * imgW := by exact_mod_cast h4
        have h5i : ((screenH * imgW % imgH : Nat) : Int) < imgH := by
          exact_mod_cast h5
        have hcm : ((screenH * imgW / imgH : Nat) : Int) * imgH =
            (imgH : Int) * ((screenH * imgW / imgH : Nat) : Int) := by ring
        simp only []
        linarith
      · intro hle
        exact absurd hgt (not_lt.mpr hle)
      · intro _
        exact ⟨rfl, rfl⟩
    · -- fill-width branch
      push_neg at hgt
      have heq : showImageGeom imgW imgH screenW screenH =
          .ok ⟨true, screenW, screenW * imgH / imgW,
               ((screenW : ℚ) - ((screenW : Nat) : ℚ)) / 2,
               ((screenH : ℚ) - ((screenW * imgH / imgW : Nat) : ℚ)) / 2⟩ := by
        simp only [showImageGeom]
        rw [if_pos hc, if_neg hw0, if_neg (not_lt.mpr hgt)]
      refine ⟨_, heq, le_refl _, hgt, ?_, ?_, ?_, ?_⟩
      · -- aspect: w * imgH - h * imgW = remainder < imgW
        have h4 : imgW * (screenW * imgH / imgW) + screenW * imgH % imgW =
            screenW * imgH := Nat.div_add_mod _ _
        have h5 : screenW * imgH % imgW < imgW := Nat.mod_lt _ hw
        have h4i : (imgW : Int) * ((screenW * imgH / imgW : Nat) : Int) +
            ((screenW * imgH % imgW : Nat) : Int) =
            (screenW : Int) * imgH := by exact_mod_cast h4
        have h5i : ((screenW * imgH % imgW : Nat) : Int) < imgW := by
          exact_mod_cast h5
        have hcm : ((screenW * imgH / imgW : Nat) : Int) * imgW =
            (imgW : Int) * ((screenW * imgH / imgW : Nat) : Int) := by ring
        simp only []
        linarith
      · -- aspect: h * imgW - w * imgH ≤ 0 < imgH
        have h3 : screenW * imgH / imgW * imgW ≤ screenW * imgH :=
          Nat.div_mul_le_self _ _
        have h3i : ((screenW * imgH / imgW : Nat) : Int) * imgW ≤
            (screenW : Int) * imgH := by exact_mod_cast h3
        have : (0 : Int) < imgH := by exact_mod_cast hh
        simp only []
        linarith
      · intro _
        exact ⟨rfl, rfl⟩
      · intro hlt
        exact absurd hlt (not_lt.mpr hgt)
  · -- identity branch
    push_neg at hc
    obtain ⟨h1, h2⟩ := hc
    have heq : showImageGeom imgW imgH screenW screenH =
        .ok ⟨false, imgW, imgH, 0, 0⟩ := by
      simp only [showImageGeom]
      rw [if_neg]
      push_neg
      exact ⟨h1, h2⟩
    have hcand : screenW * imgH / imgW = imgH := by
      rw [← h2]
      exact Nat.mul_div_cancel_left imgH hw
    refine ⟨_, heq, h2.le, h1.le, ?_, ?_, ?_, ?_⟩
    · have : (imgW : Int) * imgH - (imgH : Int) * imgW = 0 := by ring
      have hwi : (0 : Int) < imgW := by exact_mod_cast hw
      simp only []
      linarith
    · have : (imgH : Int) * imgW - (imgW : Int) * imgH = 0 := by ring
      have hhi : (0 : Int) < imgH := by exact_mod_cast hh
      simp only []
      linarith
    · intro _
      exact ⟨h2, by rw [hcand]⟩
    · intro hlt
      rw [hcand, h1] at hlt
      exact absurd hlt (lt_irrefl _)

/-- Witness for C2 at the spec's worked example: an 800 x 600 image on a
1920 x 1080 screen. -/
theorem showImageGeom_fits_witness :
    ∃ g : Geom, showImageGeom 800 600 1920 1080 = .ok g ∧
      g.w ≤ 1920 ∧ g.h ≤ 1080 ∧
      (g.w : Int) * (600 : Int) - (g.h : Int) * (800 : Int) < 800 ∧
      (g.h : Int) * (800 : Int) - (g.w : Int) * (600 : Int) < 600 ∧
      (1920 * 600 / 800 ≤ 1080 → g.w = 1920 ∧ g.h = 1920 * 600 / 800) ∧
      (1080 < 1920 * 600 / 800 → g.h = 1080 ∧ g.w = 1080 * 800 / 600) :=
  showImageGeom_fits 800 600 1920 1080 (by decide) (by decide) (by decide)
    (by decide)

/-- C10: fixpath always yields a path ending in a slash, is idempotent,
and leaves a path that already ends in a slash unchanged. -/
theorem fixpath_props (p : List Char) :
    (fixpath p).getLast? = some '/' ∧
    fixpath (fixpath p) = fixpath p ∧
    (p.getLast? = some '/' → fixpath p = p) := by
  by_cases h : p.getLast? = some '/'
  · simp [fixpath, h]
  · refine ⟨?_, ?_, fun hc => absurd hc h⟩
    · simp [fixpath, h, List.getLast?_concat]
    · simp [fixpath, h, List.getLast?_concat]

/-- Witness for C10's conditional part at a concrete slash-ended path. -/
theorem fixpath_props_witness : fixpath ['a', '/'] = ['a', '/'] :=
  (fixpath_props ['a', '/']).2.2 (by decide)

/-- C4: an announcement record is in the eligible set iff its inclusive
date range contains the cycle's date; concretely, the record with range
2024-01-01 .. 2024-01-31 is eligible on 2024-01-01, 2024-01-15 and
2024-01-31, and ineligible on 2023-12-31 and 2024-02-01. -/
theorem eligibleAnns_iff :
    (∀ (today : PyDate) (anns : List AnnRecord) (a : AnnRecord),
        a ∈ eligibleAnns today anns ↔
          a ∈ anns ∧ dateLE a.startDate today = true ∧
            dateLE today a.endDate = true) ∧
    eligibleAnns ⟨2024, 1, 1⟩ [demoRec] = [demoRec] ∧
    eligibleAnns ⟨2024, 1, 15⟩ [demoRec] = [demoRec] ∧
    eligibleAnns ⟨2024, 1, 31⟩ [demoRec] = [demoRec] ∧
    eligibleAnns ⟨2023, 12, 31⟩ [demoRec] = [] ∧
    eligibleAnns ⟨2024, 2, 1⟩ [demoRec] = [] := by
  refine ⟨?_, by decide, by decide, by decide, by decide, by decide⟩
  intro today anns a
  simp [eligibleAnns, List.mem_filter, and_assoc]

/-- Indexing a nonempty list at an arbitrary index reduced modulo the
length lands in the list. -/
theorem getD_mod_mem {α : Type} (l : List α) (d : α) (i : Nat)
    (h : l ≠ []) : l.getD (i % l.length) d ∈ l := by
  have hlen : 0 < l.length := List.length_pos.mpr h
  have hlt : i % l.length < l.length := Nat.mod_lt _ hlen
  rw [List.getD_eq_getElem l d hlt]
  exact List.getElem_mem hlt

/-- C5: in a scheduler step an announcement event occurs iff the first
draw is at most the announcement probability and the eligible set is
nonempty, and any announcement shown is from the eligible set; a video
event occurs iff the second draw is at most the video probability and the
video list is nonempty, and any video shown is from the list; the events
are ordered photo, then announcements, then videos. -/
theorem schedulerStep_props (annProb vidProb r1 r2 : ℚ) (ia iv : Nat)
    (photoFile : String) (anns : List (List AnnLine))
    (videos : List String) :
    ((∃ a, MediaEvent.announcement a ∈
        schedulerStep annProb vidProb r1 r2 ia iv photoFile anns videos) ↔
      (r1 ≤ annProb ∧ anns ≠ [])) ∧
    (∀ a, MediaEvent.announcement a ∈
        schedulerStep annProb vidProb r1 r2 ia iv photoFile anns videos →
      a ∈ anns) ∧
    ((∃ v, MediaEvent.video v ∈
        schedulerStep annProb vidProb r1 r2 ia iv photoFile anns videos) ↔
      (r2 ≤ vidProb ∧ videos ≠ [])) ∧
    (∀ v, MediaEvent.video v ∈
        schedulerStep annProb vidProb r1 r2 ia iv photoFile anns videos →
      v ∈ videos) ∧
    (∃ annEvents vidEvents,
      schedulerStep annProb vidProb r1 r2 ia iv photoFile anns videos =
        MediaEvent.photo photoFile :: (annEvents ++ vidEvents) ∧
      (∀ e ∈ annEvents, ∃ a, e = MediaEvent.announcement a) ∧
      (∀ e ∈ vidEvents, ∃ v, e = MediaEvent.video v)) := by
  by_cases h1 : r1 ≤ annProb ∧ anns ≠ [] <;>
    by_cases h2 : r2 ≤ vidProb ∧ videos ≠ []
  · refine ⟨?_, ?_, ?_, ?_,
      ⟨[MediaEvent.announcement (anns.getD (ia % anns.length) [])],
       [MediaEvent.video (videos.getD (iv % videos.length) "")],
       by simp [schedulerStep, h1, h2], by simp, by simp⟩⟩
    · simp [schedulerStep, h1, h2]
    · simp only [schedulerStep, if_pos h1, if_pos h2]
      intro a ha
      simp at ha
      subst ha
      rw [← List.getD_eq_getElem?_getD]
      exact getD_mod_mem anns [] ia h1.2
    · simp [schedulerStep, h1, h2]
    · simp only [schedulerStep, if_pos h1, if_pos h2]
      intro v hv
      simp at hv
      subst hv
      rw [← List.getD_eq_getElem?_getD]
      exact getD_mod_mem videos "" iv h2.2
  · refine ⟨?_, ?_, ?_, ?_,
      ⟨[MediaEvent.announcement (anns.getD (ia % anns.length) [])], [],
       by simp [schedulerStep, h1, h2], by simp, by simp⟩⟩
    · simp [schedulerStep, h1, h2]
    · simp only [schedulerStep, if_pos h1, if_neg h2]
      intro a ha
      simp at ha
      subst ha
      rw [← List.getD_eq_getElem?_getD]
      exact getD_mod_mem anns [] ia h1.2
    · simp [schedulerStep, h1, h2]
    · simp [schedulerStep, h1, h2]
  · refine ⟨?_, ?_, ?_, ?_,
      ⟨[], [MediaEvent.video (videos.getD (iv % videos.length) "")],
       by simp [schedulerStep, h1, h2], by simp, by simp⟩⟩
    · simp [schedulerStep, h1, h2]
    · simp [schedulerStep, h1, h2]
    · simp [schedulerStep, h1, h2]
    · simp only [schedulerStep, if_neg h1, if_pos h2]
      intro v hv
      simp at hv
      subst hv
      rw [← List.getD_eq_getElem?_getD]
      exact getD_mod_mem videos "" iv h2.2
  · refine ⟨?_, ?_, ?_, ?_, ⟨[], [],
      by simp [schedulerStep, h1, h2], by simp, by simp⟩⟩
    · simp [schedulerStep, h1, h2]
    · simp [schedulerStep, h1, h2]
    · simp [schedulerStep, h1, h2]
    · simp [schedulerStep, h1, h2]

/-- Python string comparison is transitive. -/
theorem pyStrLE_trans : ∀ (a b c : List Char),
    pyStrLE a b = true → pyStrLE b c = true → pyStrLE a c = true := by
  intro a
  induction a with
  | nil => intro b c _ _; rfl
  | cons x xs ih =>
    intro b c hab hbc
    cases b with
    | nil => simp [pyStrLE] at hab
    | cons y ys =>
      cases c with
      | nil => simp [pyStrLE] at hbc
      | cons z zs =>
        simp only [pyStrLE] at hab hbc ⊢
        by_cases hxy : x = y
        · subst hxy
          rw [if_pos rfl] at hab
          by_cases hxz : x = z
          · subst hxz
            rw [if_pos rfl] at hbc ⊢
            exact ih ys zs hab hbc
          · rw [if_neg hxz] at hbc ⊢
            exact hbc
        · rw [if_neg hxy] at hab
          have hxy' : x < y := of_decide_eq_true hab
          by_cases hyz : y = z
          · subst hyz
            rw [if_neg hxy]
            exact hab
          · rw [if_neg hyz] at hbc
            have hyz' : y < z := of_decide_eq_true hbc
            have hxz' : x < z := lt_trans hxy' hyz'
            rw [if_neg (ne_of_lt hxz')]
            exact decide_eq_true hxz'

/-- Python string comparison is total. -/
theorem pyStrLE_total : ∀ (a b : List Char),
    pyStrLE a b || pyStrLE b a := by
  intro a
  induction a with
  | nil => intro b; simp [pyStrLE]
  | cons x xs ih =>
    intro b
    cases b with
    | nil => simp [pyStrLE]
    | cons y ys =>
      simp only [pyStrLE]
      by_cases hxy : x = y
      · subst hxy
        rw [if_pos rfl, if_pos rfl]
        exact ih ys
      · rw [if_neg hxy, if_neg (Ne.symm hxy)]
        rcases lt_or_gt_of_ne hxy with h | h
        · simp [decide_eq_true h]
        · simp [decide_eq_true h]

/-- The scan's left fold, written as a flatten of per-pattern match lists. -/
theorem scanPhotos_eq (dirFiles : List (List Char)) :
    ∀ (patterns : List (List Char)) (acc : List (List Char)),
      patterns.foldl
        (fun photos w =>
          (photos ++ dirFiles.filter (fun f => globMatch (listUpper w) f))
            ++ dirFiles.filter (fun f => globMatch (listLower w) f))
        acc =
      acc ++ (patterns.map (fun w =>
        dirFiles.filter (fun f => globMatch (listUpper w) f)
          ++ dirFiles.filter (fun f => globMatch (listLower w) f))).flatten := by
  intro patterns
  induction patterns with
  | nil => intro acc; simp
  | cons w ps ih =>
    intro acc
    rw [List.foldl_cons, ih]
    simp [List.append_assoc]

/-- C7 counterexample: with directory listing containing "1.123" and the
single wildcard "*.123" (whose uppercase and lowercase forms coincide),
the displayed photo list is ["1.123", "1.123"] — the same path twice, so
the catalog output is not a set of paths. -/
theorem sortedPhotos_duplicate :
    sortedPhotos [dupFile] [dupPat] = [dupFile, dupFile] ∧
    ¬ (sortedPhotos [dupFile] [dupPat]).Nodup := by
  have hscan : scanPhotos [dupFile] [dupPat] = [dupFile, dupFile] := by decide
  have hsorted : sortedPhotos [dupFile] [dupPat] = [dupFile, dupFile] := by
    unfold sortedPhotos
    rw [hscan]
    exact List.mergeSort_of_sorted (by decide)
  refine ⟨hsorted, ?_⟩
  rw [hsorted]
  decide

/-- C7 amended: the catalog produces the list (with multiplicity — see the
counterexample) of directory entries matching some pattern's all-uppercase
or all-lowercase form, sorted lexicographically by code point; "PHOTO.JPG"
matches the uppercase form of "*.jpg" while the mixed-case "Photo.Jpg"
matches neither form and is excluded. -/
theorem sortedPhotos_props :
    (∀ (dirFiles patterns : List (List Char)) (f : List Char),
        f ∈ sortedPhotos dirFiles patterns ↔
          f ∈ dirFiles ∧ ∃ w ∈ patterns,
            (globMatch (listUpper w) f = true ∨
             globMatch (listLower w) f = true)) ∧
    (∀ dirFiles patterns : List (List Char),
        (sortedPhotos dirFiles patterns).Pairwise
          (fun a b => pyStrLE a b = true)) ∧
    globMatch (listUpper ['*', '.', 'j', 'p', 'g'])
      ['P', 'H', 'O', 'T', 'O', '.', 'J', 'P', 'G'] = true ∧
    globMatch (listUpper ['*', '.', 'j', 'p', 'g'])
      ['P', 'h', 'o', 't', 'o', '.', 'J', 'p', 'g'] = false ∧
    globMatch (listLower ['*', '.', 'j', 'p', 'g'])
      ['P', 'h', 'o', 't', 'o', '.', 'J', 'p', 'g'] = false := by
  refine ⟨?_, ?_, by decide, by decide, by decide⟩
  · intro dirFiles patterns f
    have hperm := List.mergeSort_perm (scanPhotos dirFiles patterns)
      (fun a b => pyStrLE a b)
    rw [sortedPhotos, hperm.mem_iff, scanPhotos, scanPhotos_eq]
    simp only [List.nil_append, List.mem_flatten, List.mem_map]
    constructor
    · rintro ⟨l, ⟨w, hw, rfl⟩, hf⟩
      rcases List.mem_append.mp hf with h | h
      · exact ⟨(List.mem_filter.mp h).1, w, hw,
          Or.inl (List.mem_filter.mp h).2⟩
      · exact ⟨(List.mem_filter.mp h).1, w, hw,
          Or.inr (List.mem_filter.mp h).2⟩
    · rintro ⟨hfd, w, hw, h | h⟩
      · exact ⟨_, ⟨w, hw, rfl⟩,
          List.mem_append.mpr (Or.inl (List.mem_filter.mpr ⟨hfd, h⟩))⟩
      · exact ⟨_, ⟨w, hw, rfl⟩,
          List.mem_append.mpr (Or.inr (List.mem_filter.mpr ⟨hfd, h⟩))⟩
  · intro dirFiles patterns
    exact List.sorted_mergeSort
      (fun a b c => pyStrLE_trans a b c)
      (fun a b => pyStrLE_total a b)
      (scanPhotos dirFiles patterns)

/-- C8 counterexample: the load succeeds (returning the empty list, not an
error) on a source whose only entry is malformed — its text line is
missing the required size, color and center fields — because the entry's
date range does not contain today, so its lines are never parsed.  The
whole load does not fail, and in particular no ConfigError exists. -/
theorem parseAnnouncements_malformed_ok :
    parseAnnouncements ⟨2024, 6, 1⟩ [badLineItem] = .ok [] := by decide

/-- C8 amended: an entry whose start or end date is missing or unparseable
always aborts the whole load with an uncaught exception (TypeError or
ValueError; the source defines no ConfigError), so no partial announcement
set is returned. -/
theorem parseAnnouncements_bad_date_fails (today : PyDate)
    (items : List RawItem)
    (hbad : ∃ item ∈ items,
      exceptIsOk (strptimeDate item.startdate) = false ∨
      exceptIsOk (strptimeDate item.enddate) = false) :
    exceptIsOk (parseAnnouncements today items) = false := by
  induction items with
  | nil => simp at hbad
  | cons it rest ih =>
    rcases hbad with ⟨item, hmem, hbadi⟩
    rcases List.mem_cons.mp hmem with rfl | hmemrest
    · simp only [parseAnnouncements]
      cases hsd : strptimeDate item.startdate with
      | error e => simp [exceptIsOk]
      | ok sd =>
        cases hed : strptimeDate item.enddate with
        | error e => simp [exceptIsOk]
        | ok ed =>
          rcases hbadi with h | h
          · rw [hsd] at h
            simp [exceptIsOk] at h
          · rw [hed] at h
            simp [exceptIsOk] at h
    · have hrec := ih ⟨item, hmemrest, hbadi⟩
      simp only [parseAnnouncements]
      cases hsd : strptimeDate it.startdate with
      | error e => simp [exceptIsOk]
      | ok sd =>
        cases hed : strptimeDate it.enddate with
        | error e => simp [exceptIsOk]
        | ok ed =>
          by_cases helig : (dateLE sd today && dateLE today ed) = true
          · cases hlines : it.lines.mapM parseAnnLine with
            | error e => simp [helig, hlines, exceptIsOk]
            | ok lines =>
              cases hrest : parseAnnouncements today rest with
              | error e => simp [helig, hlines, hrest, exceptIsOk]
              | ok anns =>
                rw [hrest] at hrec
                simp [exceptIsOk] at hrec
          · simp only [Bool.not_eq_true] at helig
            simp only [helig]
            simpa [exceptIsOk] using hrec

/-- Witness for C8's amended statement: an entry with the unparseable
start date "not-a-date" makes the whole load fail. -/
theorem parseAnnouncements_bad_date_fails_witness :
    exceptIsOk (parseAnnouncements ⟨2024, 6, 1⟩
      [⟨some "not-a-date", some "2000-01-02", []⟩]) = false :=
  parseAnnouncements_bad_date_fails ⟨2024, 6, 1⟩
    [⟨some "not-a-date", some "2000-01-02", []⟩]
    ⟨⟨some "not-a-date", some "2000-01-02", []⟩, by simp,
      Or.inl (by decide)⟩

end MediaDisplay
